import Mathlib

/-!
Shallow embedding of the dialogue decision engine of the beauty-salon
AI receptionist (`src/core_logic.py`), together with the two pieces of
HTTP-layer glue from `src/app.py` that the claims mention: parsing of the
caller-supplied session state (unparseable state becomes the empty state)
and the substitution of a canned reply when the engine returns empty text.

Python strings are modelled as Lean `String`s; `x in s` substring tests,
`str.lower()` (ASCII case folding), `str.strip()` (Unicode whitespace at
both ends) and slicing are modelled by explicit functions below.  The
session-state dict with its two optional fields is modelled by `ConvState`;
a missing key and a key stored as `None` both behave as `Option.none`
(both make `dict.get` return `None`).  The Gemini call, the only fallible
operation, is modelled by a caller-chosen `ModelOutcome`; the `try/except`
structure of `generate_reply` is made explicit with `Except`.
-/

namespace SalonCore

/-- Whitespace as matched by Python's `str.strip` / regex `\s` on the
code points that can realistically occur here (ASCII whitespace plus the
common Unicode spaces, including the full-width ideographic space). -/
def pyIsSpace (c : Char) : Bool :=
  c.toNat = 32 || c.toNat = 9 || c.toNat = 10 || c.toNat = 13 ||
  c.toNat = 11 || c.toNat = 12 || c.toNat = 133 || c.toNat = 160 ||
  c.toNat = 8232 || c.toNat = 8233 || c.toNat = 12288

/-- Model of `str.strip()` on the character list: drop whitespace at both ends. -/
def pyStripList (l : List Char) : List Char :=
  (l.dropWhile pyIsSpace).rdropWhile pyIsSpace

/-- Python `str.strip()`. -/
def pyStrip (s : String) : String := String.mk (pyStripList s.data)

/-- Python `str.lower()` (ASCII case folding; the keyword tables only
contain ASCII letters and Chinese characters). -/
def pyLower (s : String) : String := String.mk (s.data.map Char.toLower)

/-- Decidable infix test on character lists (`pat` occurs inside `l`). -/
def infixOf : List Char → List Char → Bool
  | pat, [] => pat.isEmpty
  | pat, c :: tl => pat.isPrefixOf (c :: tl) || infixOf pat tl

/-- Python's `pat in s` substring test. -/
def strContains (s pat : String) : Bool := infixOf pat.data s.data

/-- Conversation state (`src/core_logic.py`): a dict with the two
trackable fields; absent key and `None` value are both `none`. -/
structure ConvState where
  treatment : Option String
  booking_time : Option String
deriving DecidableEq

/-- Python truthiness of `dict.get(key)` for an optional string field:
`None` and the empty string are falsy. -/
def truthy : Option String → Bool
  | none => false
  | some s => !(s = "")

/-- The value interpolated into an f-string for a field that the
surrounding code has checked to be truthy. -/
def optStr (o : Option String) : String := o.getD ""

/-- Embedding of `update_conversation_state` (core_logic.py lines 78-103): first-write
extraction of `treatment` and `booking_time` from the utterance. -/
def update_conversation_state (current_state : ConvState) (user_text : String) : ConvState :=
  let u := user_text
  let ul := pyLower u
  let t :=
    if !truthy current_state.treatment then
      if strContains u "深層清潔" || strContains ul "deep" then some "深層清潔 facial"
      else if strContains ul "basic facial" ||
          (strContains ul "basic" && strContains ul "facial") then some "basic facial"
      else if strContains u "皮秒" || strContains u "激光" then some "皮秒激光療程"
      else if strContains u "按摩" || strContains ul "body" then some "身體按摩"
      else current_state.treatment
    else current_state.treatment
  let time_keywords : List String :=
    ["星期", "禮拜", "聽日", "後日", "今日", "今晚", "下晝", "夜晚", "點", "am", "pm"]
  let bt :=
    if !truthy current_state.booking_time then
      if time_keywords.any (fun k => strContains u k) then
        some (String.mk ((pyStrip u).data.take 50))
      else current_state.booking_time
    else current_state.booking_time
  { treatment := t, booking_time := bt }

/-- The classifier's booking-intent signal list (core_logic.py line 144). -/
def booking_signals : List String :=
  ["預約", "約", "book", "改期", "幾點", "幾時", "邊日", "時間"]

/-- The classifier's price-inquiry signal list (line 149). -/
def price_signals : List String := ["幾錢", "幾多錢", "價錢", "費用", "cost"]

/-- The classifier's service-description signal list (line 154). -/
def facial_signals : List String := ["facial", "面部", "清潔", "皮膚", "做面"]

/-- Embedding of `_should_use_quick_path` (lines 136-158). -/
def should_use_quick_path (user_text : String) (state : ConvState) : Bool :=
  let u := pyLower user_text
  booking_signals.any (fun sig => strContains u sig) ||
  price_signals.any (fun sig => strContains u sig) ||
  (facial_signals.any (fun sig => strContains u sig) && truthy state.treatment)

/-- The rule responder's booking-branch keyword list (line 171). -/
def booking_branch_keywords : List String := ["預約", "約", "book", "改期"]

/-- The rule responder's price-branch keyword list (line 180). -/
def price_branch_keywords : List String := ["幾錢", "幾多錢", "價錢", "費用"]

/-- The "which treatment" question of the booking branch (line 173). -/
def which_treatment_question : String :=
  "好呀～你想預約邊款療程呢？basic facial 定深層清潔 facial？"

/-- Embedding of `quick_rule_reply` (lines 161-202): deterministic rule reply, empty
string meaning "no rule applies". -/
def quick_rule_reply (user_text : String) (state : ConvState) : String :=
  let u := pyLower user_text
  let treatment := state.treatment
  let booking_time := state.booking_time
  if booking_branch_keywords.any (fun sig => strContains u sig) then
    if !truthy treatment then which_treatment_question
    else if !truthy booking_time then
      "明白～你想預約 " ++ optStr treatment ++ "。你想約邊日同幾點呢？"
    else
      "好～我幫你登記：" ++ optStr booking_time ++ " 做 " ++ optStr treatment ++
        "。麻煩留低全名同電話號碼～"
  else if price_branch_keywords.any (fun sig => strContains u sig) then
    if truthy treatment then
      if optStr treatment = "basic facial" then
        "good，basic facial 係 $480 起。有咩皮膚問題想重點改善嗎？"
      else if optStr treatment = "深層清潔 facial" then
        "deep facial 係 $680 起。幫你深層清潔同補水。"
      else
        "你揀嘅 " ++ optStr treatment ++ " 根據療程時間唔同，約 $680-$1800 左右。"
    else
      "basic facial $480 起，深層清潔 $680，皮秒激光 $1800 起。你想了解邊款呢？"
  else if (["facial", "清潔", "皮膚"] : List String).any (fun sig => strContains u sig) &&
      truthy treatment then
    "好呀，關於 " ++ optStr treatment ++ "，我哋可以幫你安排。你想幾時嚟做呢？"
  else if strContains u "營業時間" || strContains u "幾時開" || strContains u "幾時收" then
    "我哋營業時間係早上十一點到夜晚九點，星期一休息。"
  else if strContains u "位置" || strContains u "地址" || strContains u "邊度" then
    "我哋喺中環，具體地址你可以聯絡我時再畀你。你想先預約嗎？"
  else ""

/-! Text cleaning (`strip_brackets_and_symbols`, lines 207-217). -/

/-- Opening parenthesis of the bracket regex `[（(]`. -/
def is_open_paren (c : Char) : Bool := c = '（' || c = '('

/-- Closing parenthesis of the bracket regex `[）)]`. -/
def is_close_paren (c : Char) : Bool := c = '）' || c = ')'

/-- Attempt to complete a bracket-regex match just after an opening
parenthesis: up to `fuel` (= 40) characters none of which is any
parenthesis, then a closing parenthesis.  Returns the remainder after
the closing parenthesis on success (the regex `[^（）()]{0,40}[）)]`). -/
def paren_inner : Nat → List Char → Option (List Char)
  | _, [] => none
  | fuel, c :: cs =>
    if is_close_paren c then some cs
    else if is_open_paren c then none
    else
      match fuel with
      | 0 => none
      | f + 1 => paren_inner f cs

/-- Left-to-right removal of all matches of `[（(][^（）()]{0,40}[）)]`
(`re.sub` with empty replacement).  The fuel argument only bounds the
recursion; `remove_paren_spans` supplies `l.length`, which is always
sufficient since every step consumes at least one character. -/
def remove_paren_go : Nat → List Char → List Char
  | 0, l => l
  | _ + 1, [] => []
  | fuel + 1, c :: cs =>
    if is_open_paren c then
      match paren_inner 40 cs with
      | some rest => remove_paren_go fuel rest
      | none => c :: remove_paren_go fuel cs
    else c :: remove_paren_go fuel cs

/-- All parenthetical spans (capped at 40 inner characters) removed. -/
def remove_paren_spans (l : List Char) : List Char := remove_paren_go l.length l

/-- The dash-like characters of the regex `[\-─═]+` (line 216). -/
def is_dash (c : Char) : Bool := c = '-' || c = '─' || c = '═'

/-- Embedding of `strip_brackets_and_symbols` (lines 207-217): remove short
parenthetical spans, then all `*`, `"` and `'` characters, then all
dash-like characters (`re.sub` of `[\-─═]+` with the empty replacement
deletes exactly those characters), then strip. -/
def strip_brackets_and_symbols (text : String) : String :=
  if text = "" then ""
  else
    let l1 := remove_paren_spans text.data
    let l2 := ((l1.filter (fun c => !(c = Char.ofNat 42))).filter
        (fun c => !(c = Char.ofNat 34))).filter (fun c => !(c = Char.ofNat 39))
    let l3 := l2.filter (fun c => !is_dash c)
    String.mk (pyStripList l3)

/-! The consistency filter (`apply_hard_rules_to_reply`, lines 220-254). -/

/-- Sentence-terminal characters of the split regex `(?<=[。！？\?!])\s*`. -/
def is_terminal (c : Char) : Bool :=
  c = '。' || c = '！' || c = '？' || c = '?' || c = '!'

/-- Worker for the sentence split: `skip` records that we are right after
a terminal character, still consuming the `\s*` of the lookbehind split. -/
def split_sentences_aux : Bool → List Char → List Char → List String
  | _, acc, [] => [String.mk acc.reverse]
  | skip, acc, c :: cs =>
    if skip && pyIsSpace c then split_sentences_aux true acc cs
    else if is_terminal c then
      String.mk (c :: acc).reverse :: split_sentences_aux true [] cs
    else split_sentences_aux false (c :: acc) cs

/-- Model of `re.split(r"(?<=[。！？\?!])\s*", raw_reply)`: cut after every
sentence-terminal character, discarding whitespace that follows it. -/
def split_sentences (raw : String) : List String :=
  split_sentences_aux false [] raw.data

/-- Marker phrases that re-ask the treatment (line 240). -/
def treatment_markers : List String := ["想做咩", "邊款療程", "做邊款", "邊隻 facial"]

/-- Marker phrases that re-ask the time (line 244). -/
def time_markers : List String := ["幾點", "幾時", "邊日", "咩時間"]

/-- Is a sentence dropped by the consistency filter in this state?
Note the guards use `is not None` (lines 230-231), not truthiness. -/
def sentence_dropped (state : ConvState) (s : String) : Bool :=
  (state.treatment.isSome && treatment_markers.any (fun kw => strContains s kw)) ||
  (state.booking_time.isSome && time_markers.any (fun kw => strContains s kw))

/-- The filtering loop of `apply_hard_rules_to_reply` (lines 233-248):
skip blank sentences, drop re-asking sentences, strip the survivors. -/
def sentence_filter (state : ConvState) : List String → List String
  | [] => []
  | s :: rest =>
    if pyStrip s = "" then sentence_filter state rest
    else if sentence_dropped state s then sentence_filter state rest
    else pyStrip s :: sentence_filter state rest

/-- Python `cleaned.endswith("。")`. -/
def ends_with_period (s : String) : Bool := s.data.getLast? = some '。'

/-- Embedding of `apply_hard_rules_to_reply` (lines 220-254). -/
def apply_hard_rules_to_reply (raw_reply : String) (state : ConvState) : String :=
  if raw_reply = "" then raw_reply
  else
    let filtered := sentence_filter state (split_sentences raw_reply)
    let cleaned := pyStrip (String.intercalate "。" filtered)
    let cleaned :=
      if !ends_with_period cleaned && !(cleaned = "") then cleaned ++ "。" else cleaned
    strip_brackets_and_symbols cleaned

/-! `sanitize_tts_text` (lines 350-357). -/

/-- One unit of the alternation `(斜線|slash|／|\\|/)` with `re.I`:
if it matches at the head of the list, return the remainder.  The five
alternatives start with distinct characters, so the match is
deterministic. -/
def slash_unit : List Char → Option (List Char)
  | [] => none
  | c :: cs =>
    if c = '斜' then
      match cs with
      | c2 :: cs2 => if c2 = '線' then some cs2 else none
      | [] => none
    else if c = '／' || c = Char.ofNat 92 || c = '/' then some cs
    else if c.toLower = 's' then
      match cs with
      | c1 :: c2 :: c3 :: c4 :: cs4 =>
        if c1.toLower = 'l' && c2.toLower = 'a' && c3.toLower = 's' && c4.toLower = 'h' then
          some cs4
        else none
      | _ => none
    else none

/-- Model of `re.sub(r"(斜線|slash|／|\\|/)+", " ", text, flags=re.I)`: each maximal
run of adjacent alternation units becomes a single space.  `inRun` records
that the space for the current run was already emitted.  Fuel as in
`remove_paren_go`; with fuel `l.length` the base case `0` is unreachable. -/
def collapse_slashes_go : Nat → Bool → List Char → List Char
  | 0, _, _ => []
  | _ + 1, _, [] => []
  | fuel + 1, inRun, c :: cs =>
    match slash_unit (c :: cs) with
    | some rest =>
      if inRun then collapse_slashes_go fuel true rest
      else Char.ofNat 32 :: collapse_slashes_go fuel true rest
    | none => c :: collapse_slashes_go fuel false cs

/-- The slash-collapsing substitution on a character list. -/
def collapse_slashes (l : List Char) : List Char := collapse_slashes_go l.length false l

/-- Worker for `re.sub(r"\s+", " ", text)`: `inRun` records that the
single space for the current whitespace run was already emitted. -/
def collapse_ws_aux : Bool → List Char → List Char
  | _, [] => []
  | inRun, c :: cs =>
    if pyIsSpace c then
      if inRun then collapse_ws_aux true cs
      else Char.ofNat 32 :: collapse_ws_aux true cs
    else c :: collapse_ws_aux false cs

/-- Model of `re.sub(r"\s+", " ", text)`: every maximal whitespace run
becomes a single space. -/
def collapse_ws (l : List Char) : List Char := collapse_ws_aux false l

/-- Embedding of `sanitize_tts_text` (lines 350-357). -/
def sanitize_tts_text (text : String) : String :=
  if text = "" then ""
  else
    let t1 := strip_brackets_and_symbols text
    let t2 := String.mk (collapse_slashes t1.data)
    pyStrip (String.mk (collapse_ws t2.data))

/-! The orchestrator (`generate_reply`, lines 278-335) and the app-layer
glue from `src/app.py`. -/

/-- Outcome of the single bounded-time Gemini call, chosen by the
environment: extracted text (possibly empty — `_extract_text_from_response`
catches its own exceptions and returns `""`), a `FuturesTimeoutError`, or
any other exception. -/
inductive ModelOutcome where
  | ok (text : String)
  | timeout
  | fail
deriving DecidableEq

/-- The exceptions that the `try` block of `generate_reply` can raise. -/
inductive PyError where
  | futuresTimeout
  | otherError
deriving DecidableEq

/-- Canned reply for an empty utterance (line 289). -/
def canned_unheard : String := "唔好意思，我頭先好似聽唔清楚，可以再講多次嗎？"

/-- Canned reply when the model returned no usable text (line 325). -/
def canned_no_text : String := "唔好意思，我暫時回應唔到，可以重新講嗎？"

/-- Canned busy message on model timeout (line 330). -/
def canned_busy : String := "系統暫時繁忙，可以稍後再試嗎？"

/-- Canned apology on any other model error (line 335). -/
def canned_tech : String := "唔好意思，出咗啲技術問題，可以再講一次嗎？"

/-- The body of the `try` block (lines 301-325): the model call may raise;
on a response, non-empty extracted text goes through the consistency
filter, empty extracted text becomes a canned message. -/
def llm_attempt (new_state : ConvState) (model : ModelOutcome) :
    Except PyError (String × ConvState) :=
  match model with
  | .timeout => .error .futuresTimeout
  | .fail => .error .otherError
  | .ok reply_text =>
    if !(reply_text = "") then
      .ok (apply_hard_rules_to_reply reply_text new_state, new_state)
    else .ok (canned_no_text, new_state)

/-- Embedding of `generate_reply` (lines 278-335).  The `Except` return type makes the
exception behaviour explicit: `.error` would mean an exception propagates
to the caller, and the two `except` clauses of the source are the two
`.error` arms of the final `match`. -/
def generate_reply (user_text : String) (current_state : ConvState) (model : ModelOutcome) :
    Except PyError (String × ConvState) :=
  if user_text = "" then .ok (canned_unheard, current_state)
  else
    let new_state := update_conversation_state current_state user_text
    let quick :=
      if should_use_quick_path user_text new_state then quick_rule_reply user_text new_state
      else ""
    if !(quick = "") then .ok (quick, new_state)
    else
      match llm_attempt new_state model with
      | .ok r => .ok r
      | .error .futuresTimeout =>
        let fallback := quick_rule_reply user_text new_state
        .ok ((if fallback = "" then canned_busy else fallback), new_state)
      | .error .otherError =>
        let fallback := quick_rule_reply user_text new_state
        .ok ((if fallback = "" then canned_tech else fallback), new_state)

/-- Embedding of `reset_memory` (lines 340-345): both fields `None`. -/
def reset_memory : ConvState := { treatment := none, booking_time := none }

/-- The caller-supplied state as seen after `json.loads` in `app.py`
(lines 207-211): either a parsed session-state dict or unparseable. -/
inductive CallerState where
  | parsed (s : ConvState)
  | malformed
deriving DecidableEq

/-- In `app.py` (lines 207-211), a malformed (unparseable) state string is
treated as the empty state `{}`. -/
def load_caller_state : CallerState → ConvState
  | .parsed s => s
  | .malformed => { treatment := none, booking_time := none }

/-- In `app.py` (lines 247-248), the HTTP layer replaces an empty engine reply
with a canned message before speech synthesis. -/
def app_reply_text (reply : String) : String :=
  if reply = "" then "唔好意思，我頭先聽唔清楚，可以再講一次嗎？" else reply

/-! ### Helper lemmas -/

/-- The function `infixOf` decides the infix relation on character lists. -/
theorem infixOf_iff (pat l : List Char) : infixOf pat l = true ↔ pat <:+: l := by
  induction l with
  | nil =>
    simp only [infixOf, List.isEmpty_iff]
    constructor
    · rintro rfl; exact List.infix_rfl
    · intro h; exact List.eq_nil_of_infix_nil h
  | cons c tl ih =>
    simp [infixOf, List.infix_cons_iff, List.isPrefixOf_iff_prefix, ih]

/-- The function `strContains` decides the substring relation. -/
theorem strContains_iff (s pat : String) : strContains s pat = true ↔ pat.data <:+: s.data :=
  infixOf_iff pat.data s.data

/-- Stripping keeps an infix of the original character list. -/
theorem pyStripList_within (l : List Char) : pyStripList l <:+: l := by
  have h1 := List.rdropWhile_prefix pyIsSpace (l.dropWhile pyIsSpace)
  have h2 := List.dropWhile_suffix (l := l) pyIsSpace
  exact List.IsInfix.trans h1.isInfix h2.isInfix

/-- A substring of the stripped string is a substring of the original. -/
theorem strContains_of_strip {s pat : String} (h : strContains (pyStrip s) pat = true) :
    strContains s pat = true := by
  rw [strContains_iff] at h ⊢
  exact h.trans (pyStripList_within s.data)

/-- A string with a non-empty left part is non-empty. -/
theorem append_ne_empty (a b : String) (h : ¬a = "") : ¬(a ++ b) = "" := by
  intro e
  apply h
  have hd : a.data ++ b.data = ([] : List Char) := by
    rw [← String.data_append, e]
  obtain ⟨da⟩ := a
  obtain rfl : da = [] := (List.append_eq_nil.mp hd).1
  rfl

/-! ### C9, C4, C5, C10 -/

/-- C9: for every state `s` and every model outcome, `generate_reply ""` returns
the non-empty canned "didn't catch that" reply together with `s` unchanged;
no extraction runs (the returned state is exactly the input state). -/
theorem generate_reply_empty_utterance (st : ConvState) (m : ModelOutcome) :
    generate_reply "" st m = .ok (canned_unheard, st) ∧ ¬canned_unheard = "" :=
  ⟨rfl, by decide⟩

/-- C4: first-write-wins extraction — if `treatment` is already set (truthy)
then `update_conversation_state` leaves it unchanged for every utterance,
and likewise for `booking_time`. -/
theorem update_state_first_write_wins (s : ConvState) (u : String) :
    (truthy s.treatment = true →
      (update_conversation_state s u).treatment = s.treatment) ∧
    (truthy s.booking_time = true →
      (update_conversation_state s u).booking_time = s.booking_time) := by
  constructor <;> intro h <;> simp [update_conversation_state, h]

/-- Witness for C4 at a concrete state and utterance. -/
theorem update_state_first_write_wins_witness :
    (update_conversation_state ⟨some "basic facial", some "聽日"⟩ "我想做按摩 下晝三點").treatment =
      some "basic facial" ∧
    (update_conversation_state ⟨some "basic facial", some "聽日"⟩ "我想做按摩 下晝三點").booking_time =
      some "聽日" :=
  ⟨(update_state_first_write_wins ⟨some "basic facial", some "聽日"⟩ "我想做按摩 下晝三點").1
      (by decide),
   (update_state_first_write_wins ⟨some "basic facial", some "聽日"⟩ "我想做按摩 下晝三點").2
      (by decide)⟩

/-- C5: for every utterance whose lowercasing contains a booking-branch
keyword (預約/約/book/改期) and the empty state, the quick-path classifier
approves and the rule responder returns the non-empty "which treatment"
question. -/
theorem booking_quick_path_empty_state (u : String)
    (h : (booking_branch_keywords.any fun kw => strContains (pyLower u) kw) = true) :
    should_use_quick_path u ⟨none, none⟩ = true ∧
    quick_rule_reply u ⟨none, none⟩ = which_treatment_question ∧
    ¬which_treatment_question = "" := by
  refine ⟨?_, ?_, by decide⟩
  · obtain ⟨kw, hkw, hc⟩ := List.any_eq_true.mp h
    have hmem : kw ∈ booking_signals := by
      simp only [booking_branch_keywords, List.mem_cons, List.not_mem_nil, or_false] at hkw
      rcases hkw with rfl | rfl | rfl | rfl <;> decide
    simp only [should_use_quick_path, Bool.or_eq_true]
    exact Or.inl (Or.inl (List.any_eq_true.mpr ⟨kw, hmem, hc⟩))
  · simp [quick_rule_reply, h, truthy]

/-- Witness for C5 at a concrete booking utterance. -/
theorem booking_quick_path_empty_state_witness :
    should_use_quick_path "我想book" ⟨none, none⟩ = true ∧
    quick_rule_reply "我想book" ⟨none, none⟩ = which_treatment_question ∧
    ¬which_treatment_question = "" :=
  booking_quick_path_empty_state "我想book" (by decide)

/-- C10: the booking branch of the rule responder is total — for every
state and every utterance whose lowercasing contains one of the booking
keywords 預約/約/book/改期, `quick_rule_reply` returns a non-empty string. -/
theorem booking_branch_total (st : ConvState) (u : String)
    (h : (booking_branch_keywords.any fun kw => strContains (pyLower u) kw) = true) :
    ¬quick_rule_reply u st = "" := by
  by_cases h1 : truthy st.treatment
  · by_cases h2 : truthy st.booking_time
    · have : quick_rule_reply u st =
          "好～我幫你登記：" ++ optStr st.booking_time ++ " 做 " ++ optStr st.treatment ++
            "。麻煩留低全名同電話號碼～" := by
        simp [quick_rule_reply, h, h1, h2]
      rw [this]
      exact append_ne_empty _ _ (append_ne_empty _ _ (append_ne_empty _ _
        (append_ne_empty _ _ (by decide))))
    · have : quick_rule_reply u st =
          "明白～你想預約 " ++ optStr st.treatment ++ "。你想約邊日同幾點呢？" := by
        simp [quick_rule_reply, h, h1, h2]
      rw [this]
      exact append_ne_empty _ _ (append_ne_empty _ _ (by decide))
  · have : quick_rule_reply u st = which_treatment_question := by
      simp [quick_rule_reply, h, h1]
    rw [this]
    decide

/-- Witness for C10 at a concrete state with both fields set. -/
theorem booking_branch_total_witness :
    ¬quick_rule_reply "改期" ⟨some "皮秒激光療程", some "聽日3pm"⟩ = "" :=
  booking_branch_total ⟨some "皮秒激光療程", some "聽日3pm"⟩ "改期" (by decide)

/-! ### C1, C3, C2, C7 -/

/-- C1: `generate_reply` is total — for every utterance (including the
empty string), every caller-supplied state (a malformed, unparseable state
is loaded as the empty state) and every outcome of the model call, the
function returns normally (`Except.ok`, i.e. no exception escapes the
`try/except` structure) with a reply string and a state. -/
theorem generate_reply_total (u : String) (cst : CallerState) (m : ModelOutcome) :
    (∃ reply newState,
      generate_reply u (load_caller_state cst) m = .ok (reply, newState)) ∧
    load_caller_state CallerState.malformed = { treatment := none, booking_time := none } := by
  refine ⟨?_, rfl⟩
  set ns := update_conversation_state (load_caller_state cst) u with hns
  by_cases hu : u = ""
  · exact ⟨canned_unheard, load_caller_state cst, by simp [generate_reply, hu]⟩
  · by_cases hq : (if should_use_quick_path u ns
        then quick_rule_reply u ns else "") = ""
    · match m with
      | .ok t =>
        by_cases ht : t = ""
        · exact ⟨canned_no_text, ns, by simp [generate_reply, hu, hq, llm_attempt, ht]⟩
        · exact ⟨apply_hard_rules_to_reply t ns, ns,
            by simp [generate_reply, hu, hq, llm_attempt, ht]⟩
      | .timeout =>
        exact ⟨(if quick_rule_reply u ns = "" then canned_busy else quick_rule_reply u ns), ns,
          by simp [generate_reply, hu, hq, llm_attempt]⟩
      | .fail =>
        exact ⟨(if quick_rule_reply u ns = "" then canned_tech else quick_rule_reply u ns), ns,
          by simp [generate_reply, hu, hq, llm_attempt]⟩
    · exact ⟨(if should_use_quick_path u ns then quick_rule_reply u ns else ""), ns,
        by simp [generate_reply, hu, hq]⟩

/-- C3: when the model call times out — and identically on any other
model-provider error — `generate_reply` returns `.ok` (the failure is
never surfaced), the returned state is the extracted new state, and the
reply is `quick_rule_reply` on the same utterance and new state, or the
non-empty canned busy/apology message if that fallback is empty. -/
theorem generate_reply_model_failure_fallback (u : String) (st : ConvState)
    (hu : ¬u = "")
    (hq : should_use_quick_path u (update_conversation_state st u) = false ∨
          quick_rule_reply u (update_conversation_state st u) = "") :
    generate_reply u st .timeout =
      .ok ((if quick_rule_reply u (update_conversation_state st u) = "" then canned_busy
            else quick_rule_reply u (update_conversation_state st u)),
        update_conversation_state st u) ∧
    generate_reply u st .fail =
      .ok ((if quick_rule_reply u (update_conversation_state st u) = "" then canned_tech
            else quick_rule_reply u (update_conversation_state st u)),
        update_conversation_state st u) ∧
    ¬(if quick_rule_reply u (update_conversation_state st u) = "" then canned_busy
      else quick_rule_reply u (update_conversation_state st u)) = "" ∧
    ¬(if quick_rule_reply u (update_conversation_state st u) = "" then canned_tech
      else quick_rule_reply u (update_conversation_state st u)) = "" := by
  have hquick : (if should_use_quick_path u (update_conversation_state st u)
      then quick_rule_reply u (update_conversation_state st u) else "") = "" := by
    rcases hq with h | h <;> simp [h]
  have hne1 : ¬(if quick_rule_reply u (update_conversation_state st u) = "" then canned_busy
      else quick_rule_reply u (update_conversation_state st u)) = "" := by
    by_cases hf : quick_rule_reply u (update_conversation_state st u) = ""
    · rw [if_pos hf]; decide
    · rw [if_neg hf]; exact hf
  have hne2 : ¬(if quick_rule_reply u (update_conversation_state st u) = "" then canned_tech
      else quick_rule_reply u (update_conversation_state st u)) = "" := by
    by_cases hf : quick_rule_reply u (update_conversation_state st u) = ""
    · rw [if_pos hf]; decide
    · rw [if_neg hf]; exact hf
  exact ⟨by simp [generate_reply, hu, hquick, llm_attempt],
         by simp [generate_reply, hu, hquick, llm_attempt], hne1, hne2⟩

/-- Witness for C3: a turn that misses every rule, under timeout and error. -/
theorem generate_reply_model_failure_fallback_witness :
    generate_reply "hello" ⟨none, none⟩ .timeout = .ok (canned_busy, ⟨none, none⟩) ∧
    generate_reply "hello" ⟨none, none⟩ .fail = .ok (canned_tech, ⟨none, none⟩) := by
  have h := generate_reply_model_failure_fallback "hello" ⟨none, none⟩ (by decide)
    (Or.inl (by decide))
  exact ⟨h.1, h.2.1⟩

/-- C2 fails as stated: on the model path with the non-empty model
response "你想做邊款療程？" and a state with both fields set, the
Consistency Filter drops every sentence and `generate_reply` returns the
empty string to its caller — no generic fallback is substituted inside
`generate_reply`. -/
theorem generate_reply_empty_after_filter :
    ¬("你想做邊款療程？" : String) = "" ∧
    should_use_quick_path "hello" ⟨some "basic facial", some "聽日"⟩ = false ∧
    apply_hard_rules_to_reply "你想做邊款療程？" ⟨some "basic facial", some "聽日"⟩ = "" ∧
    generate_reply "hello" ⟨some "basic facial", some "聽日"⟩ (.ok "你想做邊款療程？") =
      .ok ("", ⟨some "basic facial", some "聽日"⟩) :=
  ⟨by decide, by decide, rfl, rfl⟩

/-- C2 amended: when the model path yields non-empty text and the
Consistency Filter drops every sentence, `generate_reply` itself returns
the empty reply with the extracted new state; it is the HTTP layer
(`app.py`) that then substitutes the non-empty canned fallback, so empty
text still never reaches speech synthesis. -/
theorem generate_reply_filter_empty_amended (u t : String) (st : ConvState)
    (hu : ¬u = "")
    (hq : should_use_quick_path u (update_conversation_state st u) = false ∨
          quick_rule_reply u (update_conversation_state st u) = "")
    (ht : ¬t = "")
    (hf : apply_hard_rules_to_reply t (update_conversation_state st u) = "") :
    generate_reply u st (.ok t) = .ok ("", update_conversation_state st u) ∧
    app_reply_text "" = "唔好意思，我頭先聽唔清楚，可以再講一次嗎？" ∧
    ¬app_reply_text "" = "" := by
  have hquick : (if should_use_quick_path u (update_conversation_state st u)
      then quick_rule_reply u (update_conversation_state st u) else "") = "" := by
    rcases hq with h | h <;> simp [h]
  exact ⟨by simp [generate_reply, hu, hquick, llm_attempt, ht, hf], rfl, by decide⟩

/-- Witness for the amended C2 at the counterexample's concrete input. -/
theorem generate_reply_filter_empty_amended_witness :
    generate_reply "hello" ⟨some "basic facial", some "聽日"⟩ (.ok "你想做邊款療程？") =
      .ok ("", update_conversation_state ⟨some "basic facial", some "聽日"⟩ "hello") ∧
    app_reply_text "" = "唔好意思，我頭先聽唔清楚，可以再講一次嗎？" ∧
    ¬app_reply_text "" = "" :=
  generate_reply_filter_empty_amended "hello" "你想做邊款療程？"
    ⟨some "basic facial", some "聽日"⟩ (by decide) (Or.inl (by decide)) (by decide) rfl

/-- C7 fails as stated: the booking branch has priority, so the utterance
"約幾錢" — which contains the price keyword 幾錢 but also the booking
keyword 約 — with `treatment = "basic facial"` gets a booking reply that
does not contain "$480". -/
theorem price_reply_booking_priority_counterexample :
    (price_branch_keywords.any fun kw => strContains (pyLower "約幾錢") kw) = true ∧
    quick_rule_reply "約幾錢" ⟨some "basic facial", none⟩ =
      "明白～你想預約 basic facial。你想約邊日同幾點呢？" ∧
    strContains (quick_rule_reply "約幾錢" ⟨some "basic facial", none⟩) "$480" = false :=
  ⟨by decide, rfl, by decide⟩

/-- C7 amended: for every state with `treatment = "basic facial"` and
every utterance containing a price keyword but no booking keyword (the
booking branch has priority), `quick_rule_reply` returns the fixed price
reply containing the exact configured price $480. -/
theorem price_reply_exact_amended (st : ConvState) (u : String)
    (htreat : st.treatment = some "basic facial")
    (hp : (price_branch_keywords.any fun kw => strContains (pyLower u) kw) = true)
    (hb : (booking_branch_keywords.any fun kw => strContains (pyLower u) kw) = false) :
    quick_rule_reply u st = "good，basic facial 係 $480 起。有咩皮膚問題想重點改善嗎？" ∧
    strContains (quick_rule_reply u st) "$480" = true := by
  have h1 : quick_rule_reply u st =
      "good，basic facial 係 $480 起。有咩皮膚問題想重點改善嗎？" := by
    simp [quick_rule_reply, hb, hp, htreat, truthy, optStr]
  exact ⟨h1, by rw [h1]; decide⟩

/-- Witness for the amended C7 at a concrete price inquiry. -/
theorem price_reply_exact_amended_witness :
    quick_rule_reply "幾多錢" ⟨some "basic facial", some "聽日"⟩ =
      "good，basic facial 係 $480 起。有咩皮膚問題想重點改善嗎？" ∧
    strContains (quick_rule_reply "幾多錢" ⟨some "basic facial", some "聽日"⟩) "$480" = true :=
  price_reply_exact_amended ⟨some "basic facial", some "聽日"⟩ "幾多錢" rfl
    (by decide) (by decide)

/-! ### C6: the consistency filter -/

/-- The filtering loop only ever emits stripped input sentences, in order. -/
theorem sentence_filter_sublist (st : ConvState) (l : List String) :
    (sentence_filter st l).Sublist (l.map pyStrip) := by
  induction l with
  | nil => simp [sentence_filter]
  | cons s rest ih =>
    simp only [sentence_filter, List.map_cons]
    by_cases h1 : pyStrip s = ""
    · rw [if_pos h1]; exact ih.cons _
    · rw [if_neg h1]
      by_cases h2 : sentence_dropped st s = true
      · rw [if_pos h2]; exact ih.cons _
      · rw [if_neg h2]; exact ih.cons₂ _

/-- Every survivor of the filtering loop is the strip of some input
sentence that was non-blank and not dropped. -/
theorem mem_sentence_filter {st : ConvState} {l : List String} {s : String}
    (h : s ∈ sentence_filter st l) :
    ∃ s0 ∈ l, s = pyStrip s0 ∧ ¬pyStrip s0 = "" ∧ sentence_dropped st s0 = false := by
  induction l with
  | nil => simp [sentence_filter] at h
  | cons s0 rest ih =>
    simp only [sentence_filter] at h
    by_cases h1 : pyStrip s0 = ""
    · rw [if_pos h1] at h
      obtain ⟨s1, hs1, hrest⟩ := ih h
      exact ⟨s1, List.mem_cons_of_mem _ hs1, hrest⟩
    · rw [if_neg h1] at h
      by_cases h2 : sentence_dropped st s0 = true
      · rw [if_pos h2] at h
        obtain ⟨s1, hs1, hrest⟩ := ih h
        exact ⟨s1, List.mem_cons_of_mem _ hs1, hrest⟩
      · rw [if_neg h2] at h
        rcases List.mem_cons.mp h with rfl | h'
        · exact ⟨s0, List.mem_cons_self _ _, rfl, h1, Bool.not_eq_true _ ▸ eq_false_of_ne_true h2⟩
        · obtain ⟨s1, hs1, hrest⟩ := ih h'
          exact ⟨s1, List.mem_cons_of_mem _ hs1, hrest⟩

/-- A non-blank input sentence that is not dropped survives (stripped). -/
theorem pyStrip_mem_sentence_filter {st : ConvState} {l : List String} {s : String}
    (hs : s ∈ l) (hne : ¬pyStrip s = "") (hdrop : sentence_dropped st s = false) :
    pyStrip s ∈ sentence_filter st l := by
  induction l with
  | nil => cases hs
  | cons s0 rest ih =>
    simp only [sentence_filter]
    rcases List.mem_cons.mp hs with rfl | h'
    · rw [if_neg hne, if_neg (by rw [hdrop]; exact Bool.false_ne_true)]
      exact List.mem_cons_self _ _
    · by_cases h1 : pyStrip s0 = ""
      · rw [if_pos h1]; exact ih h'
      · rw [if_neg h1]
        by_cases h2 : sentence_dropped st s0 = true
        · rw [if_pos h2]; exact ih h'
        · rw [if_neg h2]; exact List.mem_cons_of_mem _ (ih h')

/-- A sentence free of every treatment marker / time marker (as relevant
for the state) is not dropped. -/
theorem sentence_dropped_eq_false {st : ConvState} {s : String}
    (h1 : st.treatment.isSome = true → ∀ kw ∈ treatment_markers, strContains s kw = false)
    (h2 : st.booking_time.isSome = true → ∀ kw ∈ time_markers, strContains s kw = false) :
    sentence_dropped st s = false := by
  simp only [sentence_dropped, Bool.or_eq_false_iff, Bool.and_eq_false_iff]
  constructor
  · by_cases ht : st.treatment.isSome = true
    · right
      simp only [List.any_eq_false]
      intro kw hkw
      simp [h1 ht kw hkw]
    · exact Or.inl (by simpa using ht)
  · by_cases ht : st.booking_time.isSome = true
    · right
      simp only [List.any_eq_false]
      intro kw hkw
      simp [h2 ht kw hkw]
    · exact Or.inl (by simpa using ht)

/-- C6: with `treatment` set, `apply_hard_rules_to_reply`'s sentence pass
drops every sentence containing a re-asks-treatment marker — no survivor
contains one — and symmetrically for `booking_time` and the re-asks-time
markers; the other (non-blank, non-re-asking) sentences all survive,
stripped, and in their original relative order; and the function's result
is exactly the surviving sentences rejoined with 。, terminated and passed
through `strip_brackets_and_symbols`. -/
theorem consistency_filter_no_reask (st : ConvState) (raw : String) :
    (st.treatment.isSome = true →
      ∀ s ∈ sentence_filter st (split_sentences raw), ∀ kw ∈ treatment_markers,
        strContains s kw = false) ∧
    (st.booking_time.isSome = true →
      ∀ s ∈ sentence_filter st (split_sentences raw), ∀ kw ∈ time_markers,
        strContains s kw = false) ∧
    (sentence_filter st (split_sentences raw)).Sublist ((split_sentences raw).map pyStrip) ∧
    (∀ s ∈ split_sentences raw, ¬pyStrip s = "" →
      (st.treatment.isSome = true → ∀ kw ∈ treatment_markers, strContains s kw = false) →
      (st.booking_time.isSome = true → ∀ kw ∈ time_markers, strContains s kw = false) →
      pyStrip s ∈ sentence_filter st (split_sentences raw)) ∧
    apply_hard_rules_to_reply raw st =
      (if raw = "" then raw
       else strip_brackets_and_symbols
        (if !ends_with_period (pyStrip (String.intercalate "。"
                (sentence_filter st (split_sentences raw)))) &&
            !(pyStrip (String.intercalate "。" (sentence_filter st (split_sentences raw))) = "")
         then pyStrip (String.intercalate "。" (sentence_filter st (split_sentences raw))) ++ "。"
         else pyStrip (String.intercalate "。" (sentence_filter st (split_sentences raw))))) := by
  refine ⟨?_, ?_, sentence_filter_sublist st _, ?_, rfl⟩
  · intro htreat s hs kw hkw
    obtain ⟨s0, _, rfl, _, hdrop⟩ := mem_sentence_filter hs
    have hs0 : strContains s0 kw = false := by
      by_contra hc
      have hc' : strContains s0 kw = true := by
        cases h : strContains s0 kw
        · exact absurd h hc
        · rfl
      have : treatment_markers.any (fun kw => strContains s0 kw) = true :=
        List.any_eq_true.mpr ⟨kw, hkw, hc'⟩
      simp [sentence_dropped, htreat, this] at hdrop
    by_contra hc
    have hc' : strContains (pyStrip s0) kw = true := by
      cases h : strContains (pyStrip s0) kw
      · exact absurd h hc
      · rfl
    rw [strContains_of_strip hc'] at hs0
    cases hs0
  · intro htime s hs kw hkw
    obtain ⟨s0, _, rfl, _, hdrop⟩ := mem_sentence_filter hs
    have hs0 : strContains s0 kw = false := by
      by_contra hc
      have hc' : strContains s0 kw = true := by
        cases h : strContains s0 kw
        · exact absurd h hc
        · rfl
      have : time_markers.any (fun kw => strContains s0 kw) = true :=
        List.any_eq_true.mpr ⟨kw, hkw, hc'⟩
      simp [sentence_dropped, htime, this] at hdrop
    by_contra hc
    have hc' : strContains (pyStrip s0) kw = true := by
      cases h : strContains (pyStrip s0) kw
      · exact absurd h hc
      · rfl
    rw [strContains_of_strip hc'] at hs0
    cases hs0
  · intro s hs hne h1 h2
    exact pyStrip_mem_sentence_filter hs hne (sentence_dropped_eq_false h1 h2)

/-- Witness for C6: concrete multi-sentence model replies, one per marker
kind, with the re-asking sentence removed and the others preserved. -/
theorem consistency_filter_no_reask_witness :
    strContains "好呀。" "邊款療程" = false ∧
    strContains "好！" "幾點" = false ∧
    (sentence_filter ⟨some "basic facial", none⟩
        (split_sentences "好呀。你想做邊款療程呢？聽日見。")).Sublist
      ((split_sentences "好呀。你想做邊款療程呢？聽日見。").map pyStrip) ∧
    pyStrip "聽日見。" ∈ sentence_filter ⟨some "basic facial", none⟩
      (split_sentences "好呀。你想做邊款療程呢？聽日見。") ∧
    apply_hard_rules_to_reply "好呀。你想做邊款療程呢？聽日見。" ⟨some "basic facial", none⟩ =
      "好呀。。聽日見。" :=
  ⟨(consistency_filter_no_reask ⟨some "basic facial", none⟩
      "好呀。你想做邊款療程呢？聽日見。").1 (by decide) "好呀。" (by decide) "邊款療程" (by decide),
   (consistency_filter_no_reask ⟨none, some "聽日"⟩ "好！幾點得閒？").2.1 (by decide)
      "好！" (by decide) "幾點" (by decide),
   (consistency_filter_no_reask ⟨some "basic facial", none⟩
      "好呀。你想做邊款療程呢？聽日見。").2.2.1,
   (consistency_filter_no_reask ⟨some "basic facial", none⟩
      "好呀。你想做邊款療程呢？聽日見。").2.2.2.1 "聽日見。" (by decide) (by decide)
      (by decide) (by decide),
   by decide⟩

/-! ### C8: speech sanitization -/

/-- A successful bracket-match remainder is a suffix of the input. -/
theorem paren_inner_suffix :
    ∀ {fuel : Nat} {cs rest : List Char}, paren_inner fuel cs = some rest → rest <:+ cs := by
  intro fuel cs
  induction cs generalizing fuel with
  | nil => intro rest h; cases fuel <;> exact Option.noConfusion h
  | cons c cs ih =>
    intro rest h
    cases fuel with
    | zero =>
      simp only [paren_inner] at h
      split at h
      · cases h; exact List.suffix_cons c cs
      · split at h
        · cases h
        · cases h
    | succ f =>
      simp only [paren_inner] at h
      split at h
      · cases h; exact List.suffix_cons c cs
      · split at h
        · cases h
        · exact (ih h).trans (List.suffix_cons c cs)

/-- Removing parenthetical spans yields a sublist of the input. -/
theorem remove_paren_go_sublist : ∀ (fuel : Nat) (l : List Char),
    (remove_paren_go fuel l).Sublist l := by
  intro fuel
  induction fuel with
  | zero => intro l; exact List.Sublist.refl l
  | succ fuel ih =>
    intro l
    match l with
    | [] => exact List.Sublist.refl []
    | c :: cs =>
      simp only [remove_paren_go]
      by_cases h1 : is_open_paren c = true
      · rw [if_pos h1]
        match h : paren_inner 40 cs with
        | some rest => exact List.Sublist.cons c ((ih rest).trans (paren_inner_suffix h).sublist)
        | none => exact (ih cs).cons₂ c
      · rw [if_neg h1]
        exact (ih cs).cons₂ c

/-- Every character surviving `strip_brackets_and_symbols` comes from the
input and is none of the removed symbol characters. -/
theorem strip_brackets_chars {text : String} {c : Char}
    (hc : c ∈ (strip_brackets_and_symbols text).data) :
    c ∈ text.data ∧ ¬c = Char.ofNat 42 ∧ ¬c = Char.ofNat 34 ∧ ¬c = Char.ofNat 39 ∧
      is_dash c = false := by
  by_cases he : text = ""
  · rw [he] at hc; simp [strip_brackets_and_symbols] at hc
  · simp only [strip_brackets_and_symbols, if_neg he] at hc
    have h3 := (pyStripList_within _).subset hc
    rw [List.mem_filter] at h3
    obtain ⟨h2, hdash⟩ := h3
    rw [List.mem_filter] at h2
    obtain ⟨h2, h39⟩ := h2
    rw [List.mem_filter] at h2
    obtain ⟨h2, h34⟩ := h2
    rw [List.mem_filter] at h2
    obtain ⟨h1, h42⟩ := h2
    refine ⟨(remove_paren_go_sublist _ _).subset h1, ?_, ?_, ?_, ?_⟩
    · simpa using h42
    · simpa using h34
    · simpa using h39
    · simpa using hdash

/-- A successful slash-unit remainder is a suffix of the input. -/
theorem slash_unit_suffix : ∀ {l rest : List Char}, slash_unit l = some rest → rest <:+ l := by
  intro l rest h
  match l with
  | [] => simp [slash_unit] at h
  | c :: cs =>
    simp only [slash_unit] at h
    split at h
    · -- c = '斜': inner match on cs
      split at h
      · split at h
        · cases h
          exact (List.suffix_cons _ _).trans (List.suffix_cons _ _)
        · cases h
      · cases h
    · split at h
      · -- single-character slash alternative
        cases h
        exact List.suffix_cons _ _
      · split at h
        · -- ci "slash": inner match on cs
          split at h
          · split at h
            · cases h
              exact ((((List.suffix_cons _ _).trans (List.suffix_cons _ _)).trans
                (List.suffix_cons _ _)).trans (List.suffix_cons _ _)).trans
                (List.suffix_cons _ _)
            · cases h
          · cases h
        · cases h

/-- If no slash unit matches at the head, the head character is not one of
the single-character slash alternatives. -/
theorem slash_unit_none_head {c : Char} {cs : List Char}
    (h : slash_unit (c :: cs) = none) :
    ¬c = '／' ∧ ¬c = Char.ofNat 92 ∧ ¬c = '/' := by
  refine ⟨?_, ?_, ?_⟩ <;> rintro rfl <;> simp [slash_unit] at h

/-- Every character emitted by the slash-collapsing pass is either the
substituted space or an input character that is not a slash character. -/
theorem collapse_slashes_go_chars : ∀ (fuel : Nat) (b : Bool) (l : List Char) (c : Char),
    c ∈ collapse_slashes_go fuel b l →
    c = Char.ofNat 32 ∨ (c ∈ l ∧ ¬c = '／' ∧ ¬c = Char.ofNat 92 ∧ ¬c = '/') := by
  intro fuel
  induction fuel with
  | zero => intro b l c h; simp [collapse_slashes_go] at h
  | succ fuel ih =>
    intro b l c h
    match l with
    | [] => simp [collapse_slashes_go] at h
    | c0 :: cs =>
      simp only [collapse_slashes_go] at h
      match hu : slash_unit (c0 :: cs) with
      | some rest =>
        rw [hu] at h
        have hsub : ∀ x, x ∈ collapse_slashes_go fuel true rest →
            x = Char.ofNat 32 ∨
              (x ∈ c0 :: cs ∧ ¬x = '／' ∧ ¬x = Char.ofNat 92 ∧ ¬x = '/') := by
          intro x hx
          rcases ih true rest x hx with h32 | ⟨hm, hne⟩
          · exact Or.inl h32
          · exact Or.inr ⟨(slash_unit_suffix hu).subset hm, hne⟩
        cases b with
        | true => exact hsub c h
        | false =>
          rcases List.mem_cons.mp h with rfl | h'
          · exact Or.inl rfl
          · exact hsub c h'
      | none =>
        rw [hu] at h
        rcases List.mem_cons.mp h with rfl | h'
        · exact Or.inr ⟨List.mem_cons_self _ _, slash_unit_none_head hu⟩
        · rcases ih false cs c h' with h32 | ⟨hm, hne⟩
          · exact Or.inl h32
          · exact Or.inr ⟨List.mem_cons_of_mem _ hm, hne⟩

/-- Every character emitted by the whitespace-collapsing pass is either
the substituted space or an input character. -/
theorem collapse_ws_aux_chars : ∀ (b : Bool) (l : List Char) (c : Char),
    c ∈ collapse_ws_aux b l → c = Char.ofNat 32 ∨ c ∈ l := by
  intro b l
  induction l generalizing b with
  | nil => intro c h; simp [collapse_ws_aux] at h
  | cons c0 cs ih =>
    intro c h
    simp only [collapse_ws_aux] at h
    by_cases hsp : pyIsSpace c0 = true
    · rw [if_pos hsp] at h
      cases b with
      | false =>
        rcases List.mem_cons.mp h with rfl | h'
        · exact Or.inl rfl
        · rcases ih true c h' with h32 | hm
          · exact Or.inl h32
          · exact Or.inr (List.mem_cons_of_mem _ hm)
      | true =>
        rcases ih true c h with h32 | hm
        · exact Or.inl h32
        · exact Or.inr (List.mem_cons_of_mem _ hm)
    · rw [if_neg hsp] at h
      rcases List.mem_cons.mp h with rfl | h'
      · exact Or.inr (List.mem_cons_self _ _)
      · rcases ih false c h' with h32 | hm
        · exact Or.inl h32
        · exact Or.inr (List.mem_cons_of_mem _ hm)

/-- Characters that can never appear in `sanitize_tts_text` output:
asterisk, double quote, apostrophe, the three dash characters and the
three slash characters. -/
theorem sanitize_tts_chars {t : String} {c : Char}
    (hc : c ∈ (sanitize_tts_text t).data) :
    ¬c = Char.ofNat 42 ∧ ¬c = Char.ofNat 34 ∧ ¬c = Char.ofNat 39 ∧
    ¬c = '-' ∧ ¬c = '─' ∧ ¬c = '═' ∧ ¬c = '／' ∧ ¬c = Char.ofNat 92 ∧ ¬c = '/' := by
  by_cases he : t = ""
  · rw [he] at hc; simp [sanitize_tts_text] at hc
  · simp only [sanitize_tts_text, if_neg he] at hc
    have h1 := (pyStripList_within _).subset hc
    rcases collapse_ws_aux_chars false _ c h1 with h32 | h2
    · subst h32; refine ⟨?_, ?_, ?_, ?_, ?_, ?_, ?_, ?_, ?_⟩ <;> decide
    · rcases collapse_slashes_go_chars _ false _ c h2 with h32 | ⟨h3, hsl1, hsl2, hsl3⟩
      · subst h32; refine ⟨?_, ?_, ?_, ?_, ?_, ?_, ?_, ?_, ?_⟩ <;> decide
      · obtain ⟨-, h42, h34, h39, hdash⟩ := strip_brackets_chars h3
        simp only [is_dash, Bool.or_eq_false_iff] at hdash
        obtain ⟨⟨hd1, hd2⟩, hd3⟩ := hdash
        refine ⟨h42, h34, h39, ?_, ?_, ?_, hsl1, hsl2, hsl3⟩
        · simpa using hd1
        · simpa using hd2
        · simpa using hd3

/-- C8: the speech-sanitization transform — concrete behaviour on the
spec's example (the parenthetical aside is removed, and no parenthesis
character remains) and on inputs exercising the slash-token, dash-run and
whitespace rules, together with the general guarantee that no asterisk,
quote, apostrophe, dash-like or slash-like character ever survives it. -/
theorem sanitize_tts_spec :
    sanitize_tts_text "你好(慢慢講)" = "你好" ∧
    (¬('(' ∈ (sanitize_tts_text "你好(慢慢講)").data) ∧
     ¬(')' ∈ (sanitize_tts_text "你好(慢慢講)").data)) ∧
    sanitize_tts_text "哈哈 slash 哈" = "哈哈 哈" ∧
    sanitize_tts_text "下晝--三點─═好" = "下晝三點好" ∧
    sanitize_tts_text "  你 好  " = "你 好" ∧
    (∀ t : String, ∀ c ∈ (sanitize_tts_text t).data,
      ¬c = Char.ofNat 42 ∧ ¬c = Char.ofNat 34 ∧ ¬c = Char.ofNat 39 ∧
      ¬c = '-' ∧ ¬c = '─' ∧ ¬c = '═' ∧ ¬c = '／' ∧ ¬c = Char.ofNat 92 ∧ ¬c = '/') := by
  refine ⟨rfl, ⟨by decide, by decide⟩, rfl, rfl, rfl, ?_⟩
  intro t c hc
  exact sanitize_tts_chars hc

/-- Witness for C8's general conjunct at a concrete input and character. -/
theorem sanitize_tts_spec_witness :
    ¬('下' : Char) = Char.ofNat 42 ∧ ¬('下' : Char) = Char.ofNat 34 ∧
    ¬('下' : Char) = Char.ofNat 39 ∧ ¬('下' : Char) = '-' ∧ ¬('下' : Char) = '─' ∧
    ¬('下' : Char) = '═' ∧ ¬('下' : Char) = '／' ∧ ¬('下' : Char) = Char.ofNat 92 ∧
    ¬('下' : Char) = '/' :=
  sanitize_tts_spec.2.2.2.2.2 "下晝--三點─═好" '下' (by decide)

end SalonCore
